import Mathlib

/-!
# Verification of the exp_classifier LLM-orchestration pipeline

Shallow embedding of the core pipeline of the repository:
category generation/parsing (`src/pipeline/category_generator.py`),
category consolidation (`src/pipeline/category_consolidator.py`),
single- and batch-mode task classification with retries
(`src/pipeline/task_classifier.py`), and the jira_classifier subsystem
(`src/jira_classifier/task_classifier.py`, `src/jira_classifier/category_creator.py`).

Strings are modelled as `List Char` (`Str`), so every text operation of the
Python source (strip/split/lower/substring search) is an executable structural
recursion.  LLM transport calls are modelled as explicit oracles
(`Option`/`Except` valued parameters): `none`/`.error` is a raised transport
exception, `some`/`.ok` is the raw response text.  Logging, progress bars and
Excel snapshots are external collaborators (spec §1, §6) and are not part of
the embedding.  Python `int` truncation on non-negative quantities is `Nat`
division; retry back-off delays are `ℚ`.
-/

set_option maxRecDepth 4000

/-- Python strings, modelled as lists of characters. -/
abbrev Str := List Char

namespace PyStr

/-- Characters treated as whitespace by Python's `str.strip()`. -/
def isSpace (c : Char) : Bool :=
  c = ' ' || c = '\t' || c = '\n' || c = '\r' || c = '\x0b' || c = '\x0c'

/-- Python `str.strip()` (no argument): drop whitespace from both ends. -/
def strip (s : Str) : Str :=
  ((s.dropWhile isSpace).reverse.dropWhile isSpace).reverse

/-- Python `str.strip(chars)`: drop characters of the given set from both ends. -/
def stripChars (cs : Str) (s : Str) : Str :=
  ((s.dropWhile (cs.contains ·)).reverse.dropWhile (cs.contains ·)).reverse

/-- Python `str.split(sep)` for a one-character separator (keeps empty parts). -/
def splitOnChar (sep : Char) : Str → List Str
  | [] => [[]]
  | c :: cs =>
    match splitOnChar sep cs with
    | [] => [[]]
    | h :: t => if c = sep then [] :: h :: t else (c :: h) :: t

/-- Python `str.split(sep, 1)`: split at the first occurrence of `sep`,
returning `none` when `sep` does not occur. -/
def splitOnceChar (sep : Char) : Str → Option (Str × Str)
  | [] => none
  | c :: cs =>
    if c = sep then some ([], cs)
    else (splitOnceChar sep cs).map (fun p => (c :: p.1, p.2))

/-- Python `sub in s` substring test. -/
def containsSub (pat : Str) : Str → Bool
  | [] => pat.isEmpty
  | c :: cs => pat.isPrefixOf (c :: cs) || containsSub pat cs

/-- Python `str.lower()` restricted to the alphabets appearing in the source:
ASCII letters and the Russian alphabet (А–Я, Ё). -/
def lowerChar (c : Char) : Char :=
  if 'A' ≤ c ∧ c ≤ 'Z' then Char.ofNat (c.toNat + 32)
  else if 'А' ≤ c ∧ c ≤ 'Я' then Char.ofNat (c.toNat + 32)
  else if c = 'Ё' then 'ё'
  else c

/-- Python `str.lower()` on a whole string. -/
def lower (s : Str) : Str := s.map lowerChar

/-- Value of a nonempty all-digit string, `none` otherwise
(the digit branch of Python `int(...)`). -/
def digitsToNat? (s : Str) : Option Nat :=
  if s.isEmpty || s.any (fun c => !c.isDigit) then none
  else some (s.foldl (fun n c => n * 10 + (c.toNat - '0'.toNat)) 0)

/-- Python `int(s)` for an already-stripped string: optional sign then digits;
`none` models the `ValueError`. -/
def parseInt? : Str → Option Int
  | '-' :: rest => (digitsToNat? rest).map (fun n => -(n : Int))
  | '+' :: rest => (digitsToNat? rest).map (fun n => (n : Int))
  | s => (digitsToNat? s).map (fun n => (n : Int))

/-- Python `re.search(r'\d+', s)`: value of the first maximal digit run. -/
def firstNat? (s : Str) : Option Nat :=
  let t := s.dropWhile (fun c => !c.isDigit)
  if t.isEmpty then none else digitsToNat? (t.takeWhile Char.isDigit)

/-- Decimal rendering of a natural number (for f-string interpolation). -/
def natStr (n : Nat) : Str := Nat.toDigits 10 n

end PyStr

open PyStr

namespace Pipeline

/-!
## `src/pipeline/category_generator.py`
-/

/-- One candidate category record produced by `parse_categories_response`
(the keys `Название`, `Описание`, `Ключевые_слова`, `Типы_задач` of the
Python dict). -/
structure GenCategory where
  name : Str
  description : Str
  keywords : Str
  issue_types : Str
  deriving DecidableEq, Repr

/-- Body of the line loop of `parse_categories_response`
(`category_generator.py:92-104`): skip blank lines, `Название` header echoes
and `#` comment lines; a line splitting into at least four `;`-separated
fields yields one record, any other line is skipped. -/
def parseCategoryLine? (rawLine : Str) : Option GenCategory :=
  let line := strip rawLine
  if line.isEmpty || ("Название".data).isPrefixOf line || ("#".data).isPrefixOf line then
    none
  else
    match splitOnChar ';' line with
    | p0 :: p1 :: p2 :: p3 :: _ => some ⟨strip p0, strip p1, strip p2, strip p3⟩
    | _ => none

/-- `parse_categories_response` (`category_generator.py:87-106`): strip the
response, split into lines, and collect the records the line loop appends. -/
def parse_categories_response (response_text : Str) : List GenCategory :=
  (splitOnChar '\n' (strip response_text)).filterMap parseCategoryLine?

/-- A line of a generator response that produces a record: not blank, not a
header echo, not a comment, and with at least four `;`-separated fields. -/
def wellFormedCategoryLine (rawLine : Str) : Bool :=
  let line := strip rawLine
  !line.isEmpty && !(("Название".data).isPrefixOf line) && !(("#".data).isPrefixOf line)
    && decide (4 ≤ (splitOnChar ';' line).length)

/-!
## `src/pipeline/category_consolidator.py`
-/

/-- One consolidated category record produced by `parse_consolidated_categories`
(keys `Название`, `Описание`). -/
structure ConsCategory where
  name : Str
  description : Str
  deriving DecidableEq, Repr

/-- Body of the line loop of `parse_consolidated_categories`
(`category_consolidator.py:111-121`): same line discipline as the generator
parser but only two required fields. -/
def parseConsolidatedLine? (rawLine : Str) : Option ConsCategory :=
  let line := strip rawLine
  if line.isEmpty || ("Название".data).isPrefixOf line || ("#".data).isPrefixOf line then
    none
  else
    match splitOnChar ';' line with
    | p0 :: p1 :: _ => some ⟨strip p0, strip p1⟩
    | _ => none

/-- `parse_consolidated_categories` (`category_consolidator.py:106-123`). -/
def parse_consolidated_categories (response_text : Str) : List ConsCategory :=
  (splitOnChar '\n' (strip response_text)).filterMap parseConsolidatedLine?

/-- Return value of `create_final_categories`: the code returns either the
DataFrame built from the parsed consolidation response (schema
`Название`/`Описание`) or a copy of the candidate DataFrame (generator
schema); the two branches carry differently-shaped frames. -/
inductive FinalCategories where
  | consolidatedDf (rows : List ConsCategory)
  | originalDf (rows : List GenCategory)
  deriving DecidableEq, Repr

/-- Number of rows of the final-categories DataFrame. -/
def FinalCategories.rowCount : FinalCategories → Nat
  | .consolidatedDf rows => rows.length
  | .originalDf rows => rows.length

/-- `create_final_categories` (`category_consolidator.py:126-187`), with the
LLM transport abstracted as `response` (`none` = `consolidate_categories`
raised, `some r` = it returned text `r`): when the candidate count exceeds
`target_count`, consolidate and keep the parsed list only when its length is
exactly `target_count`; in every other case fall back to a copy of the
candidate list.  (Excel snapshotting is an external collaborator.) -/
def create_final_categories (categories_df : List GenCategory) (target_count : Nat)
    (response : Option Str) : FinalCategories :=
  if categories_df.length > target_count then
    match response with
    | some r =>
      let consolidated := parse_consolidated_categories r
      if consolidated.length = target_count then .consolidatedDf consolidated
      else .originalDf categories_df
    | none => .originalDf categories_df
  else
    .originalDf categories_df

/-!
## `src/pipeline/task_classifier.py` — single-task mode
-/

/-- Category-name matching step of `classify_single_task_with_llm`
(`task_classifier.py:117-127`): the Python `for` loop over `categories_df`
looking for a case-insensitive substring relation in either direction,
returning the first matching known name. -/
def findSimilarCategory (category_name : Str) : List ConsCategory → Option Str
  | [] => none
  | cat :: rest =>
    if containsSub (lower category_name) (lower cat.name)
        || containsSub (lower cat.name) (lower category_name) then
      some cat.name
    else findSimilarCategory category_name rest

/-- `classify_single_task_with_llm` (`task_classifier.py:71-130`), transport
abstracted as `response` (`.error e` = `llm_client.simple_chat` raised `e`):
strip the response; exact name match wins; otherwise first bidirectional
case-insensitive substring match; otherwise the first category.  Any raise
inside the `try` block (transport, or `iloc[0]` on an empty frame) re-raises
as `Ошибка классификации задачи: ...`. -/
def classify_single_task_with_llm (categories_df : List ConsCategory)
    (response : Except Str Str) : Except Str Str :=
  match response with
  | .error e => .error (("Ошибка классификации задачи: ".data) ++ e)
  | .ok resp =>
    let category_name := strip resp
    if (categories_df.map (·.name)).contains category_name then
      .ok category_name
    else
      match findSimilarCategory category_name categories_df with
      | some nm => .ok nm
      | none =>
        match categories_df with
        | [] => .error ("Ошибка классификации задачи: single positional indexer is out-of-bounds".data)
        | cat :: _ => .ok cat.name

/-- Observable trace of one run of a Python retry loop: how many times the
per-unit function was attempted, the `time.sleep` delays issued between
attempts (in seconds), and the value returned to the caller. -/
structure RetryTrace (α : Type) where
  attempts : Nat
  sleeps : List ℚ
  result : α
  deriving DecidableEq, Repr

/-- The f-string `f"Попытка {attempt + 1}/{max_retries}: {str(e)}"`. -/
def attemptMsg (attempt max_retries : Nat) (e : Str) : Str :=
  ("Попытка ".data) ++ natStr (attempt + 1) ++ ("/".data) ++ natStr max_retries
    ++ (": ".data) ++ e

/-- Loop body of `classify_single_task_with_retries` (`task_classifier.py:51-68`):
`remaining` is the number of loop iterations `range(max_retries)` still owes,
`attempt` the current value of the loop variable.  `llm attempt` is the
transport outcome of the attempt's `simple_chat` call.  On an exception at
`attempt == max_retries - 1` return the `Ошибка классификации` failure tuple;
otherwise sleep `0.5 * (attempt + 1)` and retry.  The dangling return after
the loop (reachable only for `max_retries = 0`) yields
`Превышено количество попыток`. -/
def classifySingleGo (categories_df : List ConsCategory) (llm : Nat → Except Str Str)
    (index : Nat) (max_retries : Nat) :
    Nat → Nat → RetryTrace (Nat × Str × Bool × Option Str)
  | 0, _ => ⟨0, [], (index, "Ошибка классификации".data, false, some ("Превышено количество попыток".data))⟩
  | remaining + 1, attempt =>
    match classify_single_task_with_llm categories_df (llm attempt) with
    | .ok category => ⟨1, [], (index, category, true, none)⟩
    | .error e =>
      if attempt = max_retries - 1 then
        ⟨1, [], (index, "Ошибка классификации".data, false, some (attemptMsg attempt max_retries e))⟩
      else
        let rest := classifySingleGo categories_df llm index max_retries remaining (attempt + 1)
        ⟨rest.attempts + 1, ((1 : ℚ) / 2) * (attempt + 1) :: rest.sleeps, rest.result⟩

/-- `classify_single_task_with_retries` (`task_classifier.py:36-68`) for the
task at positional `index`, with per-attempt transport oracle `llm`. -/
def classify_single_task_with_retries (categories_df : List ConsCategory)
    (llm : Nat → Except Str Str) (index : Nat) (max_retries : Nat) :
    RetryTrace (Nat × Str × Bool × Option Str) :=
  classifySingleGo categories_df llm index max_retries max_retries 0

/-- Input row of `classify_tasks_single_mode` (only the fields the
classification logic reads back; the prompt-text fields are opaque to it). -/
structure TaskRow where
  key : Str
  deriving DecidableEq, Repr

/-- Output row of `classify_tasks_single_mode`: the columns added to the
copied task frame. -/
structure ClassifiedRow where
  key : Str
  assigned_category : Str
  category_id : Nat
  deriving DecidableEq, Repr

/-- `categories_df[categories_df['Название'] == category].index[0] + 1`
(`task_classifier.py:332-334`): positional index of the first category with
that name, plus one; the initialised `0` when no category matches. -/
def categoryId (categories_df : List ConsCategory) (category : Str) : Nat :=
  match (categories_df.map (·.name)).findIdx? (fun nm => nm = category) with
  | some i => i + 1
  | none => 0

/-- `classify_tasks_single_mode` (`task_classifier.py:285-348`): every task
row is submitted to `classify_single_task_with_retries`; the single
coordinating thread writes each completed result into the copied frame keyed
by the row's positional index, so the merged frame does not depend on
completion order and is this per-index map.  `llm index attempt` is the
transport outcome of task `index`'s attempt number `attempt`. -/
def classify_tasks_single_mode (tasks_df : List TaskRow)
    (categories_df : List ConsCategory) (llm : Nat → Nat → Except Str Str)
    (max_retries : Nat) : List ClassifiedRow :=
  tasks_df.mapIdx (fun index row =>
    let r := classify_single_task_with_retries categories_df (llm index) index max_retries
    let category := r.result.2.1
    { key := row.key
      assigned_category := category
      category_id := categoryId categories_df category })

/-!
## `src/pipeline/category_generator.py` — retry harness
-/

/-- Loop body of `process_batch_for_categories_with_retries`
(`category_generator.py:30-44`), in the style of `classifySingleGo`: on a
transport exception at the last attempt return the empty-category failure
tuple, otherwise sleep `1.0 * (attempt + 1)` and retry; a successful call is
parsed by `parse_categories_response` (which never raises). -/
def generatorGo (llm : Nat → Except Str Str) (batch_num : Nat) (max_retries : Nat) :
    Nat → Nat → RetryTrace (Nat × List GenCategory × Bool × Option Str)
  | 0, _ => ⟨0, [], (batch_num, [], false, some ("Превышено количество попыток".data))⟩
  | remaining + 1, attempt =>
    match llm attempt with
    | .ok response => ⟨1, [], (batch_num, parse_categories_response response, true, none)⟩
    | .error e =>
      if attempt = max_retries - 1 then
        ⟨1, [], (batch_num, [], false, some (attemptMsg attempt max_retries e))⟩
      else
        let rest := generatorGo llm batch_num max_retries remaining (attempt + 1)
        ⟨rest.attempts + 1, (1 : ℚ) * (attempt + 1) :: rest.sleeps, rest.result⟩

/-- `process_batch_for_categories_with_retries` (`category_generator.py:14-44`). -/
def process_batch_for_categories_with_retries (llm : Nat → Except Str Str)
    (batch_num : Nat) (max_retries : Nat) :
    RetryTrace (Nat × List GenCategory × Bool × Option Str) :=
  generatorGo llm batch_num max_retries max_retries 0

end Pipeline

namespace JiraClassifier

/-!
## `src/jira_classifier/models.py`
-/

/-- `JiraTask` (`models.py:10-35`); datetimes are epoch numbers. -/
structure JiraTask where
  key : Str
  title : Str
  description : Str
  issue_type : Str
  status : Str
  assignee : Option Str
  reporter : Str
  created : Nat
  updated : Nat
  resolved : Option Nat
  time_spent : Nat
  original_estimate : Option Nat
  labels : List Str
  components : List Str
  priority : Str
  deriving DecidableEq, Repr

/-- `Category` (`models.py:38-57`). -/
structure Category where
  id : Str
  name : Str
  description : Str
  keywords : List Str
  issue_types : List Str
  examples : List Str
  deriving DecidableEq, Repr

/-- `ClassificationResult` (`models.py:60-78`); `category_scores` is the
Python dict in insertion order. -/
structure ClassificationResult where
  task_id : Str
  category_scores : List (Str × Int)
  final_category : Str
  confidence : Int
  reasoning : Str
  alternative_categories : List (Str × Int)
  deriving DecidableEq, Repr

/-!
## `src/jira_classifier/task_classifier.py`
-/

/-- Assignment `category_scores[cat_name] = score` on a Python dict in
insertion order: overwrite in place if the key exists, else append. -/
def updateScore (scores : List (Str × Int)) (k : Str) (v : Int) : List (Str × Int) :=
  if scores.any (fun p => p.1 = k) then
    scores.map (fun p => if p.1 = k then (k, v) else p)
  else scores ++ [(k, v)]

/-- Python `max(items, key=lambda x: x[1])`: the first pair attaining the
maximal score. -/
def firstMax : List (Str × Int) → Option (Str × Int)
  | [] => none
  | p :: ps => some (ps.foldl (fun best q => if q.2 > best.2 then q else best) p)

/-- Mutable state of the line loop of `_parse_single_task_response`. -/
structure ParseState where
  category_scores : List (Str × Int)
  final_category : Str
  confidence : Int
  reasoning : Str
  in_relevance_section : Bool
  deriving DecidableEq, Repr

/-- The `if ':' in line and '-' in line` relevance-score branch
(`task_classifier.py:258-268`). -/
def scoreLineUpdate (st : ParseState) (line : Str) : ParseState :=
  match splitOnceChar ':' line with
  | some (before, after) =>
    let cat_name := strip (stripChars ("- ".data) before)
    let score_part := strip ((splitOnChar '-' after).headD [])
    match parseInt? score_part with
    | some score => { st with category_scores := updateScore st.category_scores cat_name score }
    | none => st
  | none => st

/-- One iteration of the line loop of `_parse_single_task_response`
(`task_classifier.py:246-279`).  The `релевантность:` and
`итоговая_категория:` branches `continue`; the relevance-score branch does
not, so such a line is still examined for `уверенность:`/`обоснование:`. -/
def processLine (st : ParseState) (line : Str) : ParseState :=
  if containsSub ("релевантность:".data) (lower line) then
    { st with in_relevance_section := true }
  else if st.in_relevance_section && containsSub ("итоговая_категория:".data) (lower line) then
    match splitOnceChar ':' line with
    | some (_, after) => { st with in_relevance_section := false, final_category := strip after }
    | none => { st with in_relevance_section := false }
  else
    let st1 :=
      if st.in_relevance_section && line.contains ':' && line.contains '-' then
        scoreLineUpdate st line
      else st
    let st2 :=
      if containsSub ("уверенность:".data) (lower line) then
        { st1 with confidence := match firstNat? line with | some n => (n : Int) | none => 50 }
      else st1
    if containsSub ("обоснование:".data) (lower line) then
      match splitOnceChar ':' line with
      | some (_, after) => { st2 with reasoning := strip after }
      | none => st2
    else st2

/-- `_parse_single_task_response` (`task_classifier.py:225-304`): run the line
loop over the stripped non-blank lines of the block, then apply the
max-score / first-category fallbacks and build the ranked alternatives
(stable descending sort, Python `list.sort(reverse=True)`). -/
def _parse_single_task_response (task_id : Str) (block : Str)
    (categories : List Category) : ClassificationResult :=
  let lines := ((splitOnChar '\n' block).map strip).filter (fun l => !l.isEmpty)
  let st := lines.foldl processLine ⟨[], [], 0, [], false⟩
  let final₁ :=
    if st.final_category.isEmpty && !st.category_scores.isEmpty then
      match firstMax st.category_scores with
      | some p => p.1
      | none => st.final_category
    else st.final_category
  let (final₂, scores₂) :=
    if final₁.isEmpty then
      match categories with
      | [] => (final₁, st.category_scores)
      | c :: _ => (c.name, updateScore st.category_scores c.name 50)
    else (final₁, st.category_scores)
  let alternatives :=
    (scores₂.filter (fun p => p.1 ≠ final₂ && p.2 > 0)).mergeSort
      (fun a b => b.2 ≤ a.2)
  { task_id := task_id
    category_scores := scores₂
    final_category := final₂
    confidence := st.confidence
    reasoning := st.reasoning
    alternative_categories := alternatives }

/-- `{cat.name: 0 for cat in categories}`: zero score for every category,
first occurrence of a duplicated name keeping its dict slot. -/
def zeroScores (categories : List Category) : List (Str × Int) :=
  categories.foldl (fun d c => updateScore d c.name 0) []

/-- `categories[0].name if categories else "Неопределено"`. -/
def fallbackFinal (categories : List Category) : Str :=
  match categories with
  | [] => "Неопределено".data
  | c :: _ => c.name

/-- The padding record of `_parse_batch_response:209-221` for a task with no
matching response block. -/
def notProcessedResult (task_id : Str) (categories : List Category) : ClassificationResult :=
  ⟨task_id, zeroScores categories, fallbackFinal categories, 0,
    "Задача не была обработана".data, []⟩

/-- The per-task record of the `_classify_batch` exception path
(`task_classifier.py:93-106`). -/
def classifyErrorResult (task_id : Str) (categories : List Category) : ClassificationResult :=
  ⟨task_id, zeroScores categories, fallbackFinal categories, 0,
    "Ошибка при классификации".data, []⟩

/-- `re.split(r'ЗАДАЧА_\d+:', response)`: if `s` starts with a match of the
header pattern, return the text after the match. -/
def matchTaskHeader (s : Str) : Option Str :=
  if ("ЗАДАЧА_".data).isPrefixOf s then
    let rest := s.drop 7
    let ds := rest.takeWhile Char.isDigit
    if !ds.isEmpty && (rest.drop ds.length).headD ' ' = ':' && !(rest.drop ds.length).isEmpty then
      some (rest.drop (ds.length + 1))
    else none
  else none

/-- Worker for `splitTaskBlocks`; `fuel ≥ s.length` guarantees the fuel case
is never taken (every step consumes at least one character). -/
def splitTaskBlocksGo (fuel : Nat) (acc : Str) (s : Str) : List Str :=
  match fuel, s with
  | _, [] => [acc.reverse]
  | 0, rest => [acc.reverse ++ rest]
  | fuel + 1, c :: cs =>
    match matchTaskHeader (c :: cs) with
    | some rest => acc.reverse :: splitTaskBlocksGo fuel [] rest
    | none => splitTaskBlocksGo fuel (c :: acc) cs

/-- `re.split(r'ЗАДАЧА_\d+:', response)[1:]` (`task_classifier.py:189`). -/
def splitTaskBlocks (response : Str) : List Str :=
  match splitTaskBlocksGo response.length [] response with
  | [] => []
  | _ :: t => t

/-- `_parse_batch_response` (`task_classifier.py:173-223`) on the list of
blocks produced by the regex split: `zip` pairs tasks with blocks in order
(the per-task parser is total, so its `except` arm is unreachable), then the
`while` loop pads every remaining task with the not-processed fallback. -/
def _parse_batch_response (task_blocks : List Str) (tasks : List JiraTask)
    (categories : List Category) : List ClassificationResult :=
  ((tasks.zip task_blocks).map
      (fun p => _parse_single_task_response p.1.key p.2 categories))
    ++ (tasks.drop task_blocks.length).map (fun t => notProcessedResult t.key categories)

/-- `_classify_batch` (`task_classifier.py:74-106`), transport abstracted as
`oracleB` (`none` = `simple_chat` raised): parse the response, or emit the
error fallback for every task of the batch. -/
def _classify_batch (oracleB : List JiraTask → Option Str) (tasks : List JiraTask)
    (categories : List Category) : List ClassificationResult :=
  match oracleB tasks with
  | some response => _parse_batch_response (splitTaskBlocks response) tasks categories
  | none => tasks.map (fun t => classifyErrorResult t.key categories)

/-- `_parse_single_task_detailed_response` (`task_classifier.py:390-404`)
delegates to the block parser. -/
def _parse_single_task_detailed_response (task_id : Str) (response : Str)
    (categories : List Category) : ClassificationResult :=
  _parse_single_task_response task_id response categories

/-- `_reclassify_low_confidence` (`task_classifier.py:306-334`), transport
abstracted as `oracleS`: per low-confidence task, a successful detailed call
is parsed and replaces the entry; a raised call keeps the original result. -/
def _reclassify_low_confidence (oracleS : JiraTask → Option Str)
    (tasks : List JiraTask) (categories : List Category)
    (original_results : List ClassificationResult) : List ClassificationResult :=
  (tasks.zip original_results).map (fun p =>
    match oracleS p.1 with
    | some response => _parse_single_task_detailed_response p.1.key response categories
    | none => p.2)

/-- `{r.task_id: r for r in improved_results}`: Python dict build, later
entries overwriting earlier ones in place. -/
def resultDictInsert (d : List (Str × ClassificationResult)) (r : ClassificationResult) :
    List (Str × ClassificationResult) :=
  if d.any (fun p => p.1 = r.task_id) then
    d.map (fun p => if p.1 = r.task_id then (r.task_id, r) else p)
  else d ++ [(r.task_id, r)]

/-- Lookup in the improved-results dict. -/
def resultDictLookup (d : List (Str × ClassificationResult)) (k : Str) :
    Option ClassificationResult :=
  (d.find? (fun p => p.1 = k)).map (·.2)

/-- The batch slices `tasks[i:i + batch_size]` of the loop at
`task_classifier.py:48`; fuel-driven so the recursion is structural
(`fuel = l.length` is enough whenever `batch_size ≥ 1`). -/
def chunksGo (batch_size : Nat) : Nat → List JiraTask → List (List JiraTask)
  | 0, _ => []
  | _, [] => []
  | fuel + 1, l => l.take batch_size :: chunksGo batch_size fuel (l.drop batch_size)

/-- All batches of `tasks` of size `batch_size`. -/
def chunks (batch_size : Nat) (l : List JiraTask) : List (List JiraTask) :=
  chunksGo batch_size l.length l

/-- The batch loop of `classify_tasks` (`task_classifier.py:45-53`): the
first-pass results, one batch after another. -/
def firstPassResults (oracleB : List JiraTask → Option Str) (tasks : List JiraTask)
    (categories : List Category) (batch_size : Nat) : List ClassificationResult :=
  (chunks batch_size tasks).flatMap (fun batch => _classify_batch oracleB batch categories)

/-- The substitution loop of `classify_tasks` (`task_classifier.py:66-69`):
replace each result whose task id is a key of the improved-results dict. -/
def applyImproved (improved_dict : List (Str × ClassificationResult))
    (results : List ClassificationResult) : List ClassificationResult :=
  results.map (fun r =>
    match resultDictLookup improved_dict r.task_id with
    | some r' => r'
    | none => r)

/-- `classify_tasks` (`task_classifier.py:29-72`): classify batch by batch,
then re-submit every result under the confidence threshold through the
detailed single-task pass and substitute the improved results by task id.
The pairing `[tasks[i] for i, r in enumerate(results) if ...]` is the
positional zip of tasks with first-pass results.  (The average-confidence
log line is logging, out of scope.) -/
def classify_tasks (oracleB : List JiraTask → Option Str)
    (oracleS : JiraTask → Option Str) (tasks : List JiraTask)
    (categories : List Category) (batch_size : Nat)
    (confidence_threshold : Int) : List ClassificationResult :=
  let results := firstPassResults oracleB tasks categories batch_size
  let low := (tasks.zip results).filter (fun p => p.2.confidence < confidence_threshold)
  if low.isEmpty then results
  else
    let improved := _reclassify_low_confidence oracleS (low.map (·.1)) categories (low.map (·.2))
    applyImproved (improved.foldl resultDictInsert []) results

/-!
## `src/jira_classifier/category_creator.py` — the sampler
-/

/-- Worker for `firstOccurrences`; `fuel ≥ l.length` guarantees the fuel
case is never taken (every step consumes at least the head). -/
def firstOccurrencesGo : Nat → List Str → List Str
  | 0, _ => []
  | _, [] => []
  | fuel + 1, x :: xs => x :: firstOccurrencesGo fuel (xs.filter (fun y => y ≠ x))

/-- Iteration order of the Python dict `tasks_by_type`: issue types in order
of first occurrence. -/
def firstOccurrences (l : List Str) : List Str := firstOccurrencesGo l.length l

/-- One iteration of the per-type loop of `_create_representative_sample`
(`category_creator.py:88-91`): for issue type `ty`, draw
`min(max(1, int(count/total*sample_size)), count)` of its tasks;
`draw l k` abstracts `random.sample(l, k)`. -/
def typeSegment (draw : List JiraTask → Nat → List JiraTask)
    (tasks : List JiraTask) (sample_size : Nat) (ty : Str) : List JiraTask :=
  let type_tasks := tasks.filter (fun t => t.issue_type = ty)
  let type_sample_size := max 1 (type_tasks.length * sample_size / tasks.length)
  draw type_tasks (min type_sample_size type_tasks.length)

/-- The stratified draw of `_create_representative_sample`
(`category_creator.py:86-91`): the per-type draws concatenated in dict
order. -/
def _stratified_sample (draw : List JiraTask → Nat → List JiraTask)
    (tasks : List JiraTask) (sample_size : Nat) : List JiraTask :=
  (firstOccurrences (tasks.map (·.issue_type))).flatMap (typeSegment draw tasks sample_size)

/-- The undershoot top-up of `_create_representative_sample`
(`category_creator.py:93-100`): when the stratified draw is short of
`sample_size`, extend it with a draw from the tasks not already selected. -/
def topUp (draw : List JiraTask → Nat → List JiraTask) (tasks : List JiraTask)
    (sample_size : Nat) (sample : List JiraTask) : List JiraTask :=
  if sample.length < sample_size then
    let remaining := tasks.filter (fun t => ¬ t ∈ sample)
    if remaining.isEmpty then sample
    else sample ++ draw remaining (min (sample_size - sample.length) remaining.length)
  else sample

/-- `_create_representative_sample` (`category_creator.py:64-102`): return all
tasks when they already fit; otherwise the stratified draw, topped up from
the not-yet-selected tasks when it undershoots, truncated to `sample_size`. -/
def _create_representative_sample (draw : List JiraTask → Nat → List JiraTask)
    (tasks : List JiraTask) (sample_size : Nat) : List JiraTask :=
  if tasks.length ≤ sample_size then tasks
  else (topUp draw tasks sample_size (_stratified_sample draw tasks sample_size)).take
    sample_size

/-- Specification of the observable behaviour of `random.sample(l, k)` for
the `k ≤ len(l)` calls the sampler makes: `k` elements of `l`, pairwise
distinct positions (so distinct values when `l` has no duplicates). -/
structure LawfulDraw (draw : List JiraTask → Nat → List JiraTask) : Prop where
  length_eq : ∀ l k, (draw l k).length = min k l.length
  subset : ∀ l k, ∀ x ∈ draw l k, x ∈ l
  nodup : ∀ l k, l.Nodup → (draw l k).Nodup

/-- `max(1, round(count(T)/total * sample_size))` — the per-type size the
SPEC's words prescribe (`spec.md` §4.1, §8), written with exact rational
rounding; to be compared with the `int(...)`-truncating code. -/
def specTypeSampleSize (type_count total sample_size : Nat) : ℤ :=
  max 1 (round ((type_count : ℚ) * sample_size / total))

/-!
## Concrete inputs used by witnesses and counterexamples
-/

/-- A task with the given key and issue type and empty everything else. -/
def mkTask (key issue_type : Str) : JiraTask :=
  ⟨key, [], [], issue_type, [], none, [], 0, 0, none, 0, none, [], [], []⟩

/-- Six distinct tasks: five of issue type `A`, one of issue type `B`. -/
def tasks6 : List JiraTask :=
  [mkTask "A1".data "A".data, mkTask "A2".data "A".data, mkTask "A3".data "A".data,
   mkTask "A4".data "A".data, mkTask "A5".data "A".data, mkTask "B1".data "B".data]

/-- The deterministic draw `random.sample l k = first k elements`, one
admissible behaviour of the unseeded generator. -/
def takeDraw (l : List JiraTask) (k : Nat) : List JiraTask := l.take k

/-- A one-element taxonomy. -/
def cats1 : List Category :=
  [⟨"cat_1".data, "Багфиксы".data, "исправление ошибок".data, [], [], []⟩]

/-- A response block whose relevance table and `Итоговая_категория` line name
categories that are not in the taxonomy. -/
def block1 : Str :=
  ("Релевантность:\n- Фантом: 90 - похоже\nИтоговая_категория: Чужая категория\n"
    ++ "Уверенность: 80\nОбоснование: тест").data

/-- A full batch response consisting of the single block `block1`. -/
def response1 : Str := ("ЗАДАЧА_1:\n").data ++ block1

end JiraClassifier

/-!
## Shared helper lemmas
-/

theorem length_filterMap_eq_countP {α β : Type} (f : α → Option β) (l : List α) :
    (l.filterMap f).length = l.countP (fun a => (f a).isSome) := by
  induction l with
  | nil => rfl
  | cons x xs ih =>
    cases h : f x <;> simp [List.filterMap_cons, h, List.countP_cons, ih]

theorem isSome_parseCategoryLine (l : Str) :
    (Pipeline.parseCategoryLine? l).isSome = Pipeline.wellFormedCategoryLine l := by
  unfold Pipeline.parseCategoryLine? Pipeline.wellFormedCategoryLine
  by_cases h1 : (strip l).isEmpty <;>
    by_cases h2 : ("Название".data).isPrefixOf (strip l) <;>
      by_cases h3 : ("#".data).isPrefixOf (strip l) <;>
        (simp only [h1, h2, h3, Bool.true_or, Bool.or_true, Bool.false_or, Bool.or_false,
          if_true, if_false, Bool.not_true, Bool.not_false, Bool.false_and, Bool.true_and,
          Bool.and_false, Option.isSome_none]
         try (rcases h4 : splitOnChar ';' (strip l) with _ | ⟨p0, _ | ⟨p1, _ | ⟨p2, _ | ⟨p3, rest⟩⟩⟩⟩ <;>
          simp [h4]))

/-!
## Claim theorems
-/

/-- C2: for every candidate category list, target count and consolidation
response (including a raised call), `create_final_categories` returns either
the original candidate list unchanged or a consolidated list of exactly
`target_count` categories — never anything in between and never a partially
applied fallback. -/
theorem claim_C2 (categories_df : List Pipeline.GenCategory) (target_count : Nat)
    (response : Option Str) :
    Pipeline.create_final_categories categories_df target_count response
        = Pipeline.FinalCategories.originalDf categories_df
    ∨ ∃ rows, Pipeline.create_final_categories categories_df target_count response
        = Pipeline.FinalCategories.consolidatedDf rows ∧ rows.length = target_count := by
  rcases response with _ | r <;> unfold Pipeline.create_final_categories
  · split
    · exact Or.inl rfl
    · exact Or.inl rfl
  · split
    · by_cases h : (Pipeline.parse_consolidated_categories r).length = target_count
      · exact Or.inr ⟨Pipeline.parse_consolidated_categories r, by simp only [h, if_true], h⟩
      · exact Or.inl (by simp only [h, if_false])
    · exact Or.inl rfl

/-- C7: a generator response with `N` well-formed category lines (at least
four `;`-separated fields, not blank/header/comment) and `M` malformed lines
interleaved parses into exactly `N` records; the parser is a total function,
so no input raises. -/
theorem claim_C7 (response_text : Str) (N M : Nat)
    (hN : (splitOnChar '\n' (strip response_text)).countP Pipeline.wellFormedCategoryLine = N)
    (hM : (splitOnChar '\n' (strip response_text)).countP
        (fun l => !Pipeline.wellFormedCategoryLine l) = M) :
    (Pipeline.parse_categories_response response_text).length = N
    ∧ (splitOnChar '\n' (strip response_text)).length = N + M := by
  constructor
  · rw [Pipeline.parse_categories_response, length_filterMap_eq_countP, ← hN]
    exact List.countP_congr (fun x _ => by rw [isSome_parseCategoryLine])
  · rw [← hN, ← hM]
    have h := List.length_eq_countP_add_countP Pipeline.wellFormedCategoryLine
      (splitOnChar '\n' (strip response_text))
    rw [h]
    congr 1
    exact List.countP_congr (fun x _ => by cases Pipeline.wellFormedCategoryLine x <;> simp)

/-- Witness for C7 at a concrete response: two well-formed lines, one
field-poor line and one blank line. -/
theorem claim_C7_witness :
    (Pipeline.parse_categories_response ("A;B;C;D\nплохо\n\nX;Y;Z;W;Q".data)).length = 2
    ∧ (splitOnChar '\n' (strip ("A;B;C;D\nплохо\n\nX;Y;Z;W;Q".data))).length = 2 + 2 :=
  claim_C7 ("A;B;C;D\nплохо\n\nX;Y;Z;W;Q".data) 2 2 (by decide) (by decide)

/-- Both retry loops issue sleeps `c * (attempt + 1)` over increasing attempt
numbers; for `0 ≤ c` such a list is sorted non-decreasingly. -/
theorem sleeps_pairwise_le (c : ℚ) (hc : 0 ≤ c) (a n : Nat) :
    ((List.range n).map (fun k => c * ((a + k : Nat) + 1 : ℚ))).Pairwise (· ≤ ·) := by
  refine List.Pairwise.map _ ?_ (List.pairwise_lt_range n)
  intro k₁ k₂ hk
  have : ((a + k₁ : Nat) : ℚ) ≤ ((a + k₂ : Nat) : ℚ) := by
    exact_mod_cast Nat.add_le_add_left (Nat.le_of_lt hk) a
  nlinarith

/-- Run of `generatorGo` when every attempt's transport call raises:
`remaining` iterations are left and all fail, so the loop performs exactly
`remaining` further attempts, sleeping `1.0 * (attempt + 1)` between them,
and ends in the typed failure carrying the last attempt's error. -/
theorem generatorGo_all_fail (llm : Nat → Except Str Str) (errs : Nat → Str)
    (hllm : ∀ i, llm i = .error (errs i)) (batch_num max_retries : Nat) :
    ∀ remaining attempt, 1 ≤ remaining → attempt + remaining = max_retries →
      Pipeline.generatorGo llm batch_num max_retries remaining attempt =
        ⟨remaining,
         (List.range (remaining - 1)).map (fun k => (1 : ℚ) * ((attempt + k : Nat) + 1 : ℚ)),
         (batch_num, [], false,
          some (Pipeline.attemptMsg (max_retries - 1) max_retries (errs (max_retries - 1))))⟩ := by
  intro remaining
  induction remaining with
  | zero => intro attempt h1 _; omega
  | succ r ih =>
    intro attempt _ h2
    rw [Pipeline.generatorGo, hllm attempt]
    dsimp only
    by_cases hlast : attempt = max_retries - 1
    · have hr : r = 0 := by omega
      subst hr
      simp [hlast]
    · obtain ⟨m, rfl⟩ : ∃ m, r = m + 1 := ⟨r - 1, by omega⟩
      rw [if_neg hlast, ih (attempt + 1) (by omega) (by omega)]
      dsimp only
      refine congrArg₂ (Pipeline.RetryTrace.mk (m + 1 + 1)) ?_ rfl
      rw [show m + 1 + 1 - 1 = m + 1 from rfl, show m + 1 - 1 = m from rfl,
        List.range_succ_eq_map, List.map_cons, List.map_map]
      refine congrArg₂ List.cons (by push_cast; ring) ?_
      refine List.map_congr_left (fun k _ => ?_)
      simp only [Function.comp]
      push_cast
      ring

/-- Run of `classifySingleGo` when every attempt's transport call raises
(each raise surfaces as the re-raised `Ошибка классификации задачи:` message):
the loop performs exactly `remaining` further attempts, sleeping
`0.5 * (attempt + 1)` between them, and ends in the `Ошибка классификации`
failure carrying the last attempt's error. -/
theorem classifySingleGo_all_fail (categories_df : List Pipeline.ConsCategory)
    (llm : Nat → Except Str Str) (errs : Nat → Str)
    (hllm : ∀ i, llm i = .error (errs i)) (index max_retries : Nat) :
    ∀ remaining attempt, 1 ≤ remaining → attempt + remaining = max_retries →
      Pipeline.classifySingleGo categories_df llm index max_retries remaining attempt =
        ⟨remaining,
         (List.range (remaining - 1)).map (fun k => ((1 : ℚ) / 2) * ((attempt + k : Nat) + 1 : ℚ)),
         (index, "Ошибка классификации".data, false,
          some (Pipeline.attemptMsg (max_retries - 1) max_retries
            (("Ошибка классификации задачи: ".data) ++ errs (max_retries - 1))))⟩ := by
  intro remaining
  induction remaining with
  | zero => intro attempt h1 _; omega
  | succ r ih =>
    intro attempt _ h2
    rw [Pipeline.classifySingleGo, hllm attempt]
    dsimp only [Pipeline.classify_single_task_with_llm]
    by_cases hlast : attempt = max_retries - 1
    · have hr : r = 0 := by omega
      subst hr
      simp [hlast]
    · obtain ⟨m, rfl⟩ : ∃ m, r = m + 1 := ⟨r - 1, by omega⟩
      rw [if_neg hlast, ih (attempt + 1) (by omega) (by omega)]
      dsimp only
      refine congrArg₂ (Pipeline.RetryTrace.mk (m + 1 + 1)) ?_ rfl
      rw [show m + 1 + 1 - 1 = m + 1 from rfl, show m + 1 - 1 = m from rfl,
        List.range_succ_eq_map, List.map_cons, List.map_map]
      refine congrArg₂ List.cons (by push_cast; ring) ?_
      refine List.map_congr_left (fun k _ => ?_)
      simp only [Function.comp]
      push_cast
      ring

/-- C3: a work unit whose per-unit function raises on every attempt is
attempted exactly `max_retries` times by both retry wrappers
(`process_batch_for_categories_with_retries` and
`classify_single_task_with_retries`), the sleep delays between consecutive
attempts are `backoff_base * attempt_number` and hence non-decreasing, and
the wrapper returns the typed failure tuple carrying the last attempt's
error message instead of raising. -/
theorem claim_C3 (llm₁ llm₂ : Nat → Except Str Str) (errs₁ errs₂ : Nat → Str)
    (categories_df : List Pipeline.ConsCategory) (batch_num index max_retries : Nat)
    (hmr : 1 ≤ max_retries)
    (h₁ : ∀ i, llm₁ i = .error (errs₁ i))
    (h₂ : ∀ i, llm₂ i = .error (errs₂ i)) :
    (Pipeline.process_batch_for_categories_with_retries llm₁ batch_num max_retries).attempts
        = max_retries
    ∧ (Pipeline.process_batch_for_categories_with_retries llm₁ batch_num max_retries).sleeps
        = (List.range (max_retries - 1)).map (fun k : Nat => (1 : ℚ) * ((k : ℚ) + 1))
    ∧ (Pipeline.process_batch_for_categories_with_retries llm₁ batch_num max_retries).sleeps.Pairwise
        (· ≤ ·)
    ∧ (Pipeline.process_batch_for_categories_with_retries llm₁ batch_num max_retries).result
        = (batch_num, [], false,
           some (Pipeline.attemptMsg (max_retries - 1) max_retries (errs₁ (max_retries - 1))))
    ∧ (Pipeline.classify_single_task_with_retries categories_df llm₂ index max_retries).attempts
        = max_retries
    ∧ (Pipeline.classify_single_task_with_retries categories_df llm₂ index max_retries).sleeps
        = (List.range (max_retries - 1)).map (fun k : Nat => ((1 : ℚ) / 2) * ((k : ℚ) + 1))
    ∧ (Pipeline.classify_single_task_with_retries categories_df llm₂ index max_retries).sleeps.Pairwise
        (· ≤ ·)
    ∧ (Pipeline.classify_single_task_with_retries categories_df llm₂ index max_retries).result
        = (index, "Ошибка классификации".data, false,
           some (Pipeline.attemptMsg (max_retries - 1) max_retries
             (("Ошибка классификации задачи: ".data) ++ errs₂ (max_retries - 1)))) := by
  have e₁ := generatorGo_all_fail llm₁ errs₁ h₁ batch_num max_retries max_retries 0 hmr
    (by omega)
  have e₂ := classifySingleGo_all_fail categories_df llm₂ errs₂ h₂ index max_retries
    max_retries 0 hmr (by omega)
  rw [Pipeline.process_batch_for_categories_with_retries,
    Pipeline.classify_single_task_with_retries, e₁, e₂]
  dsimp only
  refine ⟨rfl, ?_, ?_, rfl, rfl, ?_, ?_, rfl⟩
  · exact List.map_congr_left (fun k _ => by norm_num)
  · exact sleeps_pairwise_le 1 (by norm_num) 0 _
  · exact List.map_congr_left (fun k _ => by norm_num)
  · exact sleeps_pairwise_le ((1 : ℚ) / 2) (by norm_num) 0 _

/-- Witness for C3: three permanently failing attempts with `max_retries = 3`
give three attempts and the typed failure tuple. -/
theorem claim_C3_witness :
    (Pipeline.process_batch_for_categories_with_retries
        (fun _ => .error ("boom".data)) 7 3).attempts = 3
    ∧ (Pipeline.classify_single_task_with_retries
        [⟨"Категория".data, "описание".data⟩] (fun _ => .error ("сеть".data)) 0 3).result
        = (0, "Ошибка классификации".data, false,
           some (Pipeline.attemptMsg 2 3 (("Ошибка классификации задачи: ".data) ++ "сеть".data))) :=
  ⟨(claim_C3 (fun _ => .error ("boom".data)) (fun _ => .error ("сеть".data))
      (fun _ => "boom".data) (fun _ => "сеть".data)
      [⟨"Категория".data, "описание".data⟩] 7 0 3 (by decide)
      (fun _ => rfl) (fun _ => rfl)).1,
   (claim_C3 (fun _ => .error ("boom".data)) (fun _ => .error ("сеть".data))
      (fun _ => "boom".data) (fun _ => "сеть".data)
      [⟨"Категория".data, "описание".data⟩] 7 0 3 (by decide)
      (fun _ => rfl) (fun _ => rfl)).2.2.2.2.2.2.2⟩

/-- The Python similar-category loop of `classify_single_task_with_llm` is
`find?` over the bidirectional case-insensitive substring predicate, keeping
the first matching known name. -/
theorem findSimilarCategory_eq_find? (r : Str) (cats : List Pipeline.ConsCategory) :
    Pipeline.findSimilarCategory r cats =
      (cats.find? (fun c => containsSub (lower r) (lower c.name)
        || containsSub (lower c.name) (lower r))).map (·.name) := by
  induction cats with
  | nil => rfl
  | cons c cs ih =>
    rw [Pipeline.findSimilarCategory, List.find?_cons]
    by_cases h : (containsSub (lower r) (lower c.name)
        || containsSub (lower c.name) (lower r)) = true
    · simp [h]
    · rw [Bool.not_eq_true] at h
      simp [h, ih]

/-- C9: in single-task mode, the stripped model response is used verbatim
when it exactly matches a known category name; otherwise the first known
name related to it by a case-insensitive substring match (in either
direction) is used; and when no name matches, the first known category is
the fallback. -/
theorem claim_C9 (c₀ : Pipeline.ConsCategory) (rest : List Pipeline.ConsCategory)
    (resp : Str) :
    (strip resp ∈ (c₀ :: rest).map (·.name) →
      Pipeline.classify_single_task_with_llm (c₀ :: rest) (.ok resp) = .ok (strip resp))
    ∧ (strip resp ∉ (c₀ :: rest).map (·.name) →
        ∀ cat, (c₀ :: rest).find? (fun c =>
            containsSub (lower (strip resp)) (lower c.name)
            || containsSub (lower c.name) (lower (strip resp))) = some cat →
          Pipeline.classify_single_task_with_llm (c₀ :: rest) (.ok resp) = .ok cat.name)
    ∧ (strip resp ∉ (c₀ :: rest).map (·.name) →
        (c₀ :: rest).find? (fun c =>
            containsSub (lower (strip resp)) (lower c.name)
            || containsSub (lower c.name) (lower (strip resp))) = none →
          Pipeline.classify_single_task_with_llm (c₀ :: rest) (.ok resp) = .ok c₀.name) := by
  refine ⟨fun hmem => ?_, fun hmem cat hfind => ?_, fun hmem hfind => ?_⟩
  · have hc : ((c₀ :: rest).map (·.name)).contains (strip resp) = true := by
      simpa using hmem
    rw [Pipeline.classify_single_task_with_llm]
    exact if_pos hc
  · have hc : ((c₀ :: rest).map (·.name)).contains (strip resp) = false := by
      simpa using hmem
    rw [Pipeline.classify_single_task_with_llm]
    rw [if_neg (by rw [hc]; exact Bool.false_ne_true), findSimilarCategory_eq_find?, hfind]
    rfl
  · have hc : ((c₀ :: rest).map (·.name)).contains (strip resp) = false := by
      simpa using hmem
    rw [Pipeline.classify_single_task_with_llm]
    rw [if_neg (by rw [hc]; exact Bool.false_ne_true), findSimilarCategory_eq_find?, hfind]
    rfl

/-- Witness for C9: the response ` интеграции ` matches no name exactly but
is a case-insensitive substring of `API и интеграции`, which is returned. -/
theorem claim_C9_witness :
    Pipeline.classify_single_task_with_llm
        [⟨"API и интеграции".data, "api".data⟩, ⟨"Исправление ошибок".data, "баги".data⟩]
        (.ok (" интеграции ".data))
      = .ok ("API и интеграции".data) :=
  (claim_C9 ⟨"API и интеграции".data, "api".data⟩ [⟨"Исправление ошибок".data, "баги".data⟩]
      (" интеграции ".data)).2.1 (by decide)
    ⟨"API и интеграции".data, "api".data⟩ (by decide)

/-- Counterexample to C8 as stated: a full batch-mode classification run
(`classify_tasks`) over the non-empty taxonomy `cats1` returns, for the
response `response1`, a result whose chosen category `Чужая категория` is
non-empty, does not appear in the Category set, and is not the fallback
default either — the batch parser trusts the model's
`Итоговая_категория` line without validating it. -/
theorem claim_C8_counterexample :
    ((JiraClassifier.classify_tasks (fun _ => some JiraClassifier.response1) (fun _ => none)
        [JiraClassifier.mkTask ("T-1".data) ("Bug".data)] JiraClassifier.cats1 1 50).map
        (·.final_category) = ["Чужая категория".data])
    ∧ "Чужая категория".data ∉ JiraClassifier.cats1.map (·.name)
    ∧ ("Чужая категория".data ≠ ([] : Str))
    ∧ "Чужая категория".data ≠ JiraClassifier.fallbackFinal JiraClassifier.cats1 :=
  ⟨by decide, by decide, by decide, by decide⟩

/-- C8 (amended): the invariant holds for the single-task pipeline
classifier — every category it returns on a successful transport call is a
member of the current Category set (exact match, substring match and
first-category fallback all produce known names). -/
theorem claim_C8 (categories_df : List Pipeline.ConsCategory) (hne : categories_df ≠ [])
    (resp : Str) :
    ∃ nm, Pipeline.classify_single_task_with_llm categories_df (.ok resp) = .ok nm
      ∧ nm ∈ categories_df.map (·.name) := by
  rcases categories_df with _ | ⟨c₀, rest⟩
  · exact absurd rfl hne
  · rw [Pipeline.classify_single_task_with_llm]
    by_cases hc : ((c₀ :: rest).map (·.name)).contains (strip resp) = true
    · rw [if_pos hc]
      exact ⟨strip resp, rfl, by simpa using hc⟩
    · rw [if_neg hc]
      rcases hfind : Pipeline.findSimilarCategory (strip resp) (c₀ :: rest) with _ | nm
      · exact ⟨c₀.name, rfl, by simp⟩
      · rw [findSimilarCategory_eq_find?] at hfind
        obtain ⟨cat, hcat, hnm⟩ := Option.map_eq_some'.mp hfind
        exact ⟨nm, rfl, hnm ▸ List.mem_map_of_mem _ (List.mem_of_find?_eq_some hcat)⟩

/-- Witness for the amended C8 at a concrete unmatched response: the chosen
name is a member of the two-category taxonomy. -/
theorem claim_C8_witness :
    ∃ nm, Pipeline.classify_single_task_with_llm
        [⟨"Платежи".data, "деньги".data⟩, ⟨"Навигация".data, "переходы".data⟩]
        (.ok ("нечто совсем другое".data)) = .ok nm
      ∧ nm ∈ ([⟨"Платежи".data, "деньги".data⟩,
          ⟨"Навигация".data, "переходы".data⟩] : List Pipeline.ConsCategory).map (·.name) :=
  claim_C8 [⟨"Платежи".data, "деньги".data⟩, ⟨"Навигация".data, "переходы".data⟩]
    (by decide) ("нечто совсем другое".data)

/-- `category_id` stays at its initialised `0` when the assigned string is
not a known category name. -/
theorem categoryId_eq_zero_of_not_mem (categories_df : List Pipeline.ConsCategory)
    (category : Str) (h : category ∉ categories_df.map (·.name)) :
    Pipeline.categoryId categories_df category = 0 := by
  rw [Pipeline.categoryId]
  have hnone : (categories_df.map (·.name)).findIdx? (fun nm => nm = category) = none :=
    List.findIdx?_eq_none_iff.mpr
      (fun x hx => decide_eq_false (fun heq => h (heq ▸ hx)))
  rw [hnone]

/-- C10: in single-task mode, a task whose every attempt fails keeps its row
in the output table, its assigned category is the literal error marker
`Ошибка классификации`, and — the marker not being a category name — its
`category_id` remains `0`. -/
theorem claim_C10 (tasks_df : List Pipeline.TaskRow)
    (categories_df : List Pipeline.ConsCategory) (llm : Nat → Nat → Except Str Str)
    (max_retries index : Nat) (row : Pipeline.TaskRow) (errs : Nat → Str)
    (hrow : tasks_df[index]? = some row)
    (hmr : 1 ≤ max_retries)
    (hfail : ∀ attempt, llm index attempt = .error (errs attempt))
    (hmarker : "Ошибка классификации".data ∉ categories_df.map (·.name)) :
    (Pipeline.classify_tasks_single_mode tasks_df categories_df llm max_retries).length
        = tasks_df.length
    ∧ (Pipeline.classify_tasks_single_mode tasks_df categories_df llm max_retries)[index]?
        = some ⟨row.key, "Ошибка классификации".data, 0⟩ := by
  constructor
  · rw [Pipeline.classify_tasks_single_mode]
    exact List.length_mapIdx
  · rw [Pipeline.classify_tasks_single_mode, List.mapIdx_eq_enum_map, List.getElem?_map,
      List.getElem?_enum, hrow]
    have e := classifySingleGo_all_fail categories_df (llm index) errs hfail index
      max_retries max_retries 0 hmr (by omega)
    dsimp only [Option.map_some', Function.uncurry]
    rw [Pipeline.classify_single_task_with_retries, e]
    dsimp only
    rw [categoryId_eq_zero_of_not_mem categories_df _ hmarker]

/-- Witness for C10: one task, every attempt failing, `max_retries = 3`. -/
theorem claim_C10_witness :
    (Pipeline.classify_tasks_single_mode [⟨"T-1".data⟩]
        [⟨"Платежи".data, "деньги".data⟩] (fun _ _ => .error ("сбой".data)) 3).length = 1
    ∧ (Pipeline.classify_tasks_single_mode [⟨"T-1".data⟩]
        [⟨"Платежи".data, "деньги".data⟩] (fun _ _ => .error ("сбой".data)) 3)[0]?
        = some ⟨"T-1".data, "Ошибка классификации".data, 0⟩ :=
  claim_C10 [⟨"T-1".data⟩] [⟨"Платежи".data, "деньги".data⟩]
    (fun _ _ => .error ("сбой".data)) 3 0 ⟨"T-1".data⟩ (fun _ => "сбой".data)
    rfl (by decide) (fun _ => rfl) (by decide)

/-- Indexing a zip of two lists at a position where both are defined. -/
theorem getElem?_zip_eq_some {α β : Type} (l : List α) (l' : List β) (i : Nat) (a : α)
    (b : β) (ha : l[i]? = some a) (hb : l'[i]? = some b) : (l.zip l')[i]? = some (a, b) := by
  induction l generalizing l' i with
  | nil => simp at ha
  | cons x xs ih =>
    cases l' with
    | nil => simp at hb
    | cons y ys =>
      cases i with
      | zero =>
        simp only [List.getElem?_cons_zero, Option.some.injEq] at ha hb
        simp [List.zip_cons_cons, ha, hb]
      | succ n =>
        simp only [List.getElem?_cons_succ] at ha hb
        rw [List.zip_cons_cons]
        simpa using ih ys n ha hb

/-- C4: for a low-confidence task re-submitted through the detailed pass,
a raised reclassification call leaves the original result in the list
verbatim (so the task's confidence is never lowered by a failure), while a
successful call replaces it unconditionally with the parsed detailed
response. -/
theorem claim_C4 (oracleS : JiraClassifier.JiraTask → Option Str)
    (tasks : List JiraClassifier.JiraTask) (categories : List JiraClassifier.Category)
    (original_results : List JiraClassifier.ClassificationResult)
    (i : Nat) (t : JiraClassifier.JiraTask) (orig : JiraClassifier.ClassificationResult)
    (ht : tasks[i]? = some t) (horig : original_results[i]? = some orig) :
    (oracleS t = none →
      (JiraClassifier._reclassify_low_confidence oracleS tasks categories original_results)[i]?
        = some orig)
    ∧ (oracleS t = none →
      ∃ r, (JiraClassifier._reclassify_low_confidence oracleS tasks categories
          original_results)[i]? = some r ∧ orig.confidence ≤ r.confidence)
    ∧ (∀ resp, oracleS t = some resp →
      (JiraClassifier._reclassify_low_confidence oracleS tasks categories original_results)[i]?
        = some (JiraClassifier._parse_single_task_detailed_response t.key resp categories)) := by
  have hz : (tasks.zip original_results)[i]? = some (t, orig) :=
    getElem?_zip_eq_some tasks original_results i t orig ht horig
  refine ⟨fun hfail => ?_, fun hfail => ?_, fun resp hok => ?_⟩
  · rw [JiraClassifier._reclassify_low_confidence, List.getElem?_map, hz,
      Option.map_some']
    dsimp only
    rw [hfail]
  · rw [JiraClassifier._reclassify_low_confidence, List.getElem?_map, hz,
      Option.map_some']
    dsimp only
    rw [hfail]
    exact ⟨orig, rfl, le_refl _⟩
  · rw [JiraClassifier._reclassify_low_confidence, List.getElem?_map, hz,
      Option.map_some']
    dsimp only
    rw [hok]

/-- Witness for C4: one task whose detailed pass raises keeps its original
confidence-35 result. -/
theorem claim_C4_witness :
    (JiraClassifier._reclassify_low_confidence (fun _ => none)
        [JiraClassifier.mkTask ("T-1".data) ("Bug".data)] JiraClassifier.cats1
        [⟨"T-1".data, [], "Багфиксы".data, 35, [], []⟩])[0]?
      = some ⟨"T-1".data, [], "Багфиксы".data, 35, [], []⟩ :=
  (claim_C4 (fun _ => none) [JiraClassifier.mkTask ("T-1".data) ("Bug".data)]
      JiraClassifier.cats1 [⟨"T-1".data, [], "Багфиксы".data, 35, [], []⟩] 0
      (JiraClassifier.mkTask ("T-1".data) ("Bug".data))
      ⟨"T-1".data, [], "Багфиксы".data, 35, [], []⟩ rfl rfl).1 rfl

/-- Membership in the dict-ordered issue-type list (fuel-general form). -/
theorem mem_firstOccurrencesGo (fuel : Nat) :
    ∀ (l : List Str), l.length ≤ fuel →
      ∀ x, x ∈ JiraClassifier.firstOccurrencesGo fuel l ↔ x ∈ l := by
  induction fuel with
  | zero =>
    intro l hl x
    rw [List.length_eq_zero.mp (Nat.le_zero.mp hl)]
    rfl
  | succ fuel ih =>
    intro l hl x
    cases l with
    | nil => rfl
    | cons y ys =>
      rw [JiraClassifier.firstOccurrencesGo]
      have hlen : (ys.filter (fun z => z ≠ y)).length ≤ fuel :=
        le_trans (List.length_filter_le _ _) (by simpa using hl)
      simp only [List.mem_cons, ih _ hlen x, List.mem_filter]
      constructor
      · rintro (rfl | ⟨h, _⟩)
        · exact Or.inl rfl
        · exact Or.inr h
      · rintro (rfl | h)
        · exact Or.inl rfl
        · by_cases hx : x = y
          · exact Or.inl hx
          · exact Or.inr ⟨h, by simpa using hx⟩

/-- Membership in the dict-ordered issue-type list. -/
theorem mem_firstOccurrences (l : List Str) (x : Str) :
    x ∈ JiraClassifier.firstOccurrences l ↔ x ∈ l :=
  mem_firstOccurrencesGo l.length l (le_refl _) x

/-- The dict-ordered issue-type list has no duplicates (fuel-general form). -/
theorem nodup_firstOccurrencesGo (fuel : Nat) :
    ∀ (l : List Str), l.length ≤ fuel →
      (JiraClassifier.firstOccurrencesGo fuel l).Nodup := by
  induction fuel with
  | zero =>
    intro l _
    cases l <;> exact List.nodup_nil
  | succ fuel ih =>
    intro l hl
    cases l with
    | nil => exact List.nodup_nil
    | cons y ys =>
      rw [JiraClassifier.firstOccurrencesGo]
      have hlen : (ys.filter (fun z => z ≠ y)).length ≤ fuel :=
        le_trans (List.length_filter_le _ _) (by simpa using hl)
      refine List.Nodup.cons (fun hy => ?_) (ih _ hlen)
      have := (mem_firstOccurrencesGo fuel _ hlen y).mp hy
      simp at this

/-- The dict-ordered issue-type list has no duplicates. -/
theorem nodup_firstOccurrences (l : List Str) :
    (JiraClassifier.firstOccurrences l).Nodup :=
  nodup_firstOccurrencesGo l.length l (le_refl _)

/-- Every task drawn in the segment for issue type `ty` has issue type `ty`. -/
theorem typeSegment_issue_type (draw : List JiraClassifier.JiraTask → Nat → List JiraClassifier.JiraTask)
    (hdraw : JiraClassifier.LawfulDraw draw) (tasks : List JiraClassifier.JiraTask)
    (sample_size : Nat) (ty : Str) :
    ∀ x ∈ JiraClassifier.typeSegment draw tasks sample_size ty, x.issue_type = ty := by
  intro x hx
  have hmem := hdraw.subset _ _ x hx
  have := (List.mem_filter.mp hmem).2
  exact of_decide_eq_true this

/-- Size of the segment for issue type `ty`: the `int`-truncated proportional
share, at least one, capped at the type's population. -/
theorem length_typeSegment (draw : List JiraClassifier.JiraTask → Nat → List JiraClassifier.JiraTask)
    (hdraw : JiraClassifier.LawfulDraw draw) (tasks : List JiraClassifier.JiraTask)
    (sample_size : Nat) (ty : Str) :
    (JiraClassifier.typeSegment draw tasks sample_size ty).length
      = min (max 1 ((tasks.filter (fun t => t.issue_type = ty)).length * sample_size
            / tasks.length))
          ((tasks.filter (fun t => t.issue_type = ty)).length) := by
  rw [JiraClassifier.typeSegment]
  rw [hdraw.length_eq]
  omega

/-- Issue types outside the type list contribute nothing to the stratified
concatenation. -/
theorem filter_flatMap_not_mem
    (draw : List JiraClassifier.JiraTask → Nat → List JiraClassifier.JiraTask)
    (hdraw : JiraClassifier.LawfulDraw draw) (tasks : List JiraClassifier.JiraTask)
    (sample_size : Nat) (ty : Str) :
    ∀ (types : List Str), ty ∉ types →
      (types.flatMap (JiraClassifier.typeSegment draw tasks sample_size)).filter
          (fun t => t.issue_type = ty) = [] := by
  intro types hty
  induction types with
  | nil => rfl
  | cons t ts ih =>
    rw [List.flatMap_cons, List.filter_append,
      ih (fun h => hty (List.mem_cons_of_mem _ h)), List.append_nil]
    refine List.filter_eq_nil_iff.mpr (fun x hx => ?_)
    have hx' := typeSegment_issue_type draw hdraw tasks sample_size t x hx
    have hne : t ≠ ty := fun h => hty (h ▸ List.mem_cons_self _ _)
    simp [hx', hne]

/-- For a duplicate-free type list containing `ty`, filtering the stratified
concatenation to issue type `ty` recovers exactly `ty`'s segment. -/
theorem filter_flatMap_eq_segment
    (draw : List JiraClassifier.JiraTask → Nat → List JiraClassifier.JiraTask)
    (hdraw : JiraClassifier.LawfulDraw draw) (tasks : List JiraClassifier.JiraTask)
    (sample_size : Nat) (ty : Str) :
    ∀ (types : List Str), types.Nodup → ty ∈ types →
      (types.flatMap (JiraClassifier.typeSegment draw tasks sample_size)).filter
          (fun t => t.issue_type = ty)
        = JiraClassifier.typeSegment draw tasks sample_size ty := by
  intro types hnd hty
  induction types with
  | nil => simp at hty
  | cons t ts ih =>
    rw [List.flatMap_cons, List.filter_append]
    by_cases heq : t = ty
    · subst heq
      rw [filter_flatMap_not_mem draw hdraw tasks sample_size t ts
        (List.Nodup.not_mem hnd), List.append_nil]
      refine List.filter_eq_self.mpr (fun a ha => ?_)
      exact decide_eq_true (typeSegment_issue_type draw hdraw tasks sample_size t a ha)
    · have hty' : ty ∈ ts := by
        rcases List.mem_cons.mp hty with h | h
        · exact absurd h.symm heq
        · exact h
      rw [ih (List.Nodup.of_cons hnd) hty']
      have : (JiraClassifier.typeSegment draw tasks sample_size t).filter
          (fun x => x.issue_type = ty) = [] := by
        refine List.filter_eq_nil_iff.mpr (fun x hx => ?_)
        have hx' := typeSegment_issue_type draw hdraw tasks sample_size t x hx
        simp [hx', heq]
      rw [this, List.nil_append]

/-- C5 (amended): for a task list larger than the sample size and a
non-empty issue type `ty`, the stratified phase draws exactly
`min(count(ty), max(1, ⌊count(ty)·sample_size/total⌋))` tasks of type `ty`
(`int` truncation, not rounding), without replacement when the task list has
no duplicates. -/
theorem claim_C5 (draw : List JiraClassifier.JiraTask → Nat → List JiraClassifier.JiraTask)
    (hdraw : JiraClassifier.LawfulDraw draw) (tasks : List JiraClassifier.JiraTask)
    (sample_size : Nat) (ty : Str)
    (_htotal : sample_size < tasks.length)
    (hty : ty ∈ tasks.map (·.issue_type)) :
    ((JiraClassifier._stratified_sample draw tasks sample_size).filter
        (fun t => t.issue_type = ty)).length
      = min (max 1 ((tasks.filter (fun t => t.issue_type = ty)).length * sample_size
            / tasks.length))
          ((tasks.filter (fun t => t.issue_type = ty)).length)
    ∧ (tasks.Nodup →
      ((JiraClassifier._stratified_sample draw tasks sample_size).filter
          (fun t => t.issue_type = ty)).Nodup) := by
  have heq := filter_flatMap_eq_segment draw hdraw tasks sample_size ty
    (JiraClassifier.firstOccurrences (tasks.map (·.issue_type)))
    (nodup_firstOccurrences _) ((mem_firstOccurrences _ _).mpr hty)
  rw [JiraClassifier._stratified_sample, heq]
  exact ⟨length_typeSegment draw hdraw tasks sample_size ty,
    fun hnodup => hdraw.nodup _ _ (List.Nodup.filter _ hnodup)⟩

/-- `take` is one admissible behaviour of `random.sample`. -/
theorem lawfulDraw_take : JiraClassifier.LawfulDraw JiraClassifier.takeDraw :=
  ⟨fun l k => by simp [JiraClassifier.takeDraw, List.length_take],
   fun l k x hx => (List.take_sublist k l).subset hx,
   fun l k h => (List.take_sublist k l).nodup h⟩

/-- Witness for the amended C5 on `tasks6` (five `A` tasks, one `B` task,
`sample_size = 2`): the stratified phase draws `min(5, max(1, ⌊10/6⌋)) = 1`
task of type `A`. -/
theorem claim_C5_witness :
    ((JiraClassifier._stratified_sample JiraClassifier.takeDraw JiraClassifier.tasks6 2).filter
        (fun t => t.issue_type = "A".data)).length
      = min (max 1 ((JiraClassifier.tasks6.filter
            (fun t => t.issue_type = "A".data)).length * 2
            / JiraClassifier.tasks6.length))
          ((JiraClassifier.tasks6.filter (fun t => t.issue_type = "A".data)).length) :=
  (claim_C5 JiraClassifier.takeDraw lawfulDraw_take JiraClassifier.tasks6 2 ("A".data)
    (by decide) (by decide)).1

/-- Counterexample to C5 as stated: on `tasks6` (five `A` tasks out of six,
`sample_size = 2 < 6`) the code's stratified phase draws `1` task of type
`A` (the `int(...)` floor), while the claimed formula
`min(count, max(1, round(count/total*sample_size))) = min(5, max(1, round(5/3)))`
prescribes `2`. -/
theorem claim_C5_counterexample :
    2 < JiraClassifier.tasks6.length
    ∧ (JiraClassifier.tasks6.filter (fun t => t.issue_type = "A".data)).length = 5
    ∧ ((JiraClassifier._stratified_sample JiraClassifier.takeDraw
        JiraClassifier.tasks6 2).filter (fun t => t.issue_type = "A".data)).length = 1
    ∧ min 5 (JiraClassifier.specTypeSampleSize 5 6 2) = 2 :=
  ⟨by decide, by decide, by decide,
   by norm_num [JiraClassifier.specTypeSampleSize, round_eq]⟩

/-- Every task in the stratified draw comes from the input list. -/
theorem stratified_subset
    (draw : List JiraClassifier.JiraTask → Nat → List JiraClassifier.JiraTask)
    (hdraw : JiraClassifier.LawfulDraw draw) (tasks : List JiraClassifier.JiraTask)
    (sample_size : Nat) :
    ∀ x ∈ JiraClassifier._stratified_sample draw tasks sample_size, x ∈ tasks := by
  intro x hx
  rw [JiraClassifier._stratified_sample, List.mem_flatMap] at hx
  obtain ⟨ty, _, hxseg⟩ := hx
  exact (List.mem_filter.mp (hdraw.subset _ _ x hxseg)).1

/-- The stratified draw of a duplicate-free task list is duplicate-free:
each per-type segment is a draw without replacement and segments of
distinct issue types are disjoint. -/
theorem stratified_nodup
    (draw : List JiraClassifier.JiraTask → Nat → List JiraClassifier.JiraTask)
    (hdraw : JiraClassifier.LawfulDraw draw) (tasks : List JiraClassifier.JiraTask)
    (sample_size : Nat) (hnd : tasks.Nodup) :
    (JiraClassifier._stratified_sample draw tasks sample_size).Nodup := by
  rw [JiraClassifier._stratified_sample]
  refine List.nodup_flatMap.mpr ⟨fun ty _ => hdraw.nodup _ _ (List.Nodup.filter _ hnd), ?_⟩
  have hpw : List.Pairwise (fun a b => a ≠ b)
      (JiraClassifier.firstOccurrences (tasks.map (·.issue_type))) :=
    nodup_firstOccurrences _
  refine List.Pairwise.imp ?_ hpw
  intro ty₁ ty₂ hne x hx₁ hx₂
  have h₁ := typeSegment_issue_type draw hdraw tasks sample_size ty₁ x hx₁
  have h₂ := typeSegment_issue_type draw hdraw tasks sample_size ty₂ x hx₂
  exact hne (h₁ ▸ h₂)

/-- Counting what is left after removing a duplicate-free selection from a
duplicate-free list: the not-selected tasks number `total - selected`. -/
theorem length_filter_not_mem {α : Type} [DecidableEq α] (tasks sub : List α)
    (hnd : tasks.Nodup) (hsub_nd : sub.Nodup) (hsub : ∀ x ∈ sub, x ∈ tasks) :
    (tasks.filter (fun t => ¬ t ∈ sub)).length = tasks.length - sub.length := by
  have hperm : (tasks.filter (fun t => t ∈ sub)).Perm sub := by
    refine List.perm_iff_count.mpr (fun a => ?_)
    by_cases ha : a ∈ sub
    · rw [List.count_filter (by simpa using ha), List.count_eq_one_of_mem hnd (hsub a ha),
        List.count_eq_one_of_mem hsub_nd ha]
    · rw [List.count_eq_zero_of_not_mem ha, List.count_eq_zero_of_not_mem]
      intro hmem
      exact ha (of_decide_eq_true (List.mem_filter.mp hmem).2)
  have hsplit := (List.filter_append_perm (fun t => t ∈ sub) tasks).length_eq
  rw [List.length_append, hperm.length_eq] at hsplit
  have hcongr : tasks.filter (fun x => !decide (x ∈ sub))
      = tasks.filter (fun t => ¬ t ∈ sub) :=
    List.filter_congr (fun x _ => decide_not.symm)
  rw [hcongr] at hsplit
  omega

/-- After the top-up step the sample has at least `sample_size` elements
(when the task list is strictly larger), stays duplicate-free, and stays
inside the task list. -/
theorem topUp_spec
    (draw : List JiraClassifier.JiraTask → Nat → List JiraClassifier.JiraTask)
    (hdraw : JiraClassifier.LawfulDraw draw) (tasks : List JiraClassifier.JiraTask)
    (sample_size : Nat) (sample : List JiraClassifier.JiraTask)
    (hnd : tasks.Nodup) (hs_nd : sample.Nodup) (hs_sub : ∀ x ∈ sample, x ∈ tasks)
    (hlt : sample_size < tasks.length) :
    sample_size ≤ (JiraClassifier.topUp draw tasks sample_size sample).length
    ∧ (JiraClassifier.topUp draw tasks sample_size sample).Nodup
    ∧ ∀ x ∈ JiraClassifier.topUp draw tasks sample_size sample, x ∈ tasks := by
  rw [JiraClassifier.topUp]
  by_cases hshort : sample.length < sample_size
  · rw [if_pos hshort]
    have hrem_len : (tasks.filter (fun t => ¬ t ∈ sample)).length
        = tasks.length - sample.length :=
      length_filter_not_mem tasks sample hnd hs_nd hs_sub
    have hrem_pos : 0 < (tasks.filter (fun t => ¬ t ∈ sample)).length := by omega
    have hrem_ne : (tasks.filter (fun t => ¬ t ∈ sample)).isEmpty = false := by
      rcases h : tasks.filter (fun t => ¬ t ∈ sample) with _ | _
      · rw [h] at hrem_pos; simp at hrem_pos
      · rfl
    rw [if_neg (by rw [hrem_ne]; exact Bool.false_ne_true)]
    have hdlen := hdraw.length_eq (tasks.filter (fun t => ¬ t ∈ sample))
      (min (sample_size - sample.length) (tasks.filter (fun t => ¬ t ∈ sample)).length)
    refine ⟨?_, ?_, ?_⟩
    · rw [List.length_append, hdlen]
      omega
    · refine List.nodup_append.mpr ⟨hs_nd, hdraw.nodup _ _ (List.Nodup.filter _ hnd), ?_⟩
      intro x hx hx'
      have := hdraw.subset _ _ x hx'
      exact of_decide_eq_true (List.mem_filter.mp this).2 hx
    · intro x hx
      rcases List.mem_append.mp hx with h | h
      · exact hs_sub x h
      · exact (List.mem_filter.mp (hdraw.subset _ _ x h)).1
  · rw [if_neg hshort]
    exact ⟨by omega, hs_nd, hs_sub⟩

/-- C6: the sampler returns exactly `min(sample_size, total)` tasks — the
full list unchanged when it already fits, and otherwise `sample_size`
pairwise-distinct tasks drawn from the input list (stratified draw, random
top-up and truncation included). -/
theorem claim_C6
    (draw : List JiraClassifier.JiraTask → Nat → List JiraClassifier.JiraTask)
    (hdraw : JiraClassifier.LawfulDraw draw) (tasks : List JiraClassifier.JiraTask)
    (sample_size : Nat) (_hsz : 1 ≤ sample_size) (hnd : tasks.Nodup) :
    (JiraClassifier._create_representative_sample draw tasks sample_size).length
        = min sample_size tasks.length
    ∧ (JiraClassifier._create_representative_sample draw tasks sample_size).Nodup
    ∧ (∀ x ∈ JiraClassifier._create_representative_sample draw tasks sample_size, x ∈ tasks)
    ∧ (tasks.length ≤ sample_size →
        JiraClassifier._create_representative_sample draw tasks sample_size = tasks) := by
  rw [JiraClassifier._create_representative_sample]
  by_cases hle : tasks.length ≤ sample_size
  · rw [if_pos hle]
    exact ⟨(Nat.min_eq_right hle).symm, hnd, fun x hx => hx, fun _ => rfl⟩
  · rw [if_neg hle]
    have hlt : sample_size < tasks.length := by omega
    obtain ⟨htu_len, htu_nd, htu_sub⟩ := topUp_spec draw hdraw tasks sample_size
      (JiraClassifier._stratified_sample draw tasks sample_size) hnd
      (stratified_nodup draw hdraw tasks sample_size hnd)
      (stratified_subset draw hdraw tasks sample_size) hlt
    refine ⟨?_, ?_, ?_, fun h => absurd h hle⟩
    · rw [List.length_take]
      omega
    · exact (List.take_sublist _ _).nodup htu_nd
    · intro x hx
      exact htu_sub x ((List.take_sublist _ _).subset hx)

/-- Witness for C6: on the six distinct `tasks6` with `sample_size = 2`, the
sampler returns exactly `min 2 6` tasks. -/
theorem claim_C6_witness :
    (JiraClassifier._create_representative_sample JiraClassifier.takeDraw
        JiraClassifier.tasks6 2).length = min 2 JiraClassifier.tasks6.length :=
  (claim_C6 JiraClassifier.takeDraw lawfulDraw_take JiraClassifier.tasks6 2
    (by decide) (by decide)).1

/-- The parsed record keeps the task id it was called with. -/
theorem parse_single_task_id (task_id : Str) (block : Str)
    (categories : List JiraClassifier.Category) :
    (JiraClassifier._parse_single_task_response task_id block categories).task_id
      = task_id := rfl

/-- Zipping against the response blocks and then appending the unpaired
tasks recovers the whole task list. -/
theorem zip_fst_append_drop {α β : Type} :
    ∀ (tasks : List α) (blocks : List β),
      (tasks.zip blocks).map Prod.fst ++ tasks.drop blocks.length = tasks := by
  intro tasks
  induction tasks with
  | nil => intro blocks; simp
  | cons t ts ih =>
    intro blocks
    cases blocks with
    | nil => simp
    | cons b bs =>
      rw [List.zip_cons_cons, List.map_cons, List.length_cons, List.drop_succ_cons,
        List.cons_append, ih bs]

/-- One row per task, in task order: the task-id column of
`_parse_batch_response` is the key column of the input tasks. -/
theorem parse_batch_task_ids (task_blocks : List Str)
    (tasks : List JiraClassifier.JiraTask) (categories : List JiraClassifier.Category) :
    (JiraClassifier._parse_batch_response task_blocks tasks categories).map (·.task_id)
      = tasks.map (·.key) := by
  rw [JiraClassifier._parse_batch_response, List.map_append, List.map_map, List.map_map]
  have h1 : ((tasks.zip task_blocks).map
        ((fun r => r.task_id) ∘ fun p => JiraClassifier._parse_single_task_response
          p.1.key p.2 categories))
      = (tasks.zip task_blocks).map ((fun t => t.key) ∘ Prod.fst) :=
    List.map_congr_left (fun p _ => parse_single_task_id p.1.key p.2 categories)
  have h2 : ((tasks.drop task_blocks.length).map
        ((fun r => r.task_id) ∘ fun t => JiraClassifier.notProcessedResult t.key categories))
      = (tasks.drop task_blocks.length).map (fun t => t.key) :=
    List.map_congr_left (fun t _ => rfl)
  have h3 : (tasks.zip task_blocks).map ((fun t => t.key) ∘ Prod.fst)
      = ((tasks.zip task_blocks).map Prod.fst).map (fun t => t.key) :=
    (List.map_map _ _ _).symm
  rw [h1, h2, h3, ← List.map_append, zip_fst_append_drop]

/-- Same totality for a whole batch, the raised-transport path included. -/
theorem classify_batch_task_ids (oracleB : List JiraClassifier.JiraTask → Option Str)
    (tasks : List JiraClassifier.JiraTask) (categories : List JiraClassifier.Category) :
    (JiraClassifier._classify_batch oracleB tasks categories).map (·.task_id)
      = tasks.map (·.key) := by
  rw [JiraClassifier._classify_batch]
  cases oracleB tasks with
  | none => rw [List.map_map]; rfl
  | some response => exact parse_batch_task_ids _ tasks categories

/-- The fuel-driven batch slices concatenate back to the task list. -/
theorem chunksGo_flatten (batch_size : Nat) (hbs : 1 ≤ batch_size) :
    ∀ (fuel : Nat) (l : List JiraClassifier.JiraTask), l.length ≤ fuel →
      (JiraClassifier.chunksGo batch_size fuel l).flatten = l := by
  intro fuel
  induction fuel with
  | zero =>
    intro l hl
    rw [List.length_eq_zero.mp (Nat.le_zero.mp hl)]
    rfl
  | succ fuel ih =>
    intro l hl
    cases l with
    | nil => rfl
    | cons x xs =>
      rw [show JiraClassifier.chunksGo batch_size (fuel + 1) (x :: xs)
          = (x :: xs).take batch_size
            :: JiraClassifier.chunksGo batch_size fuel ((x :: xs).drop batch_size) from rfl,
        List.flatten_cons,
        ih ((x :: xs).drop batch_size) (by rw [List.length_drop]; simp at hl ⊢; omega),
        List.take_append_drop]

/-- The batch slices concatenate back to the task list. -/
theorem chunks_flatten (batch_size : Nat) (hbs : 1 ≤ batch_size)
    (l : List JiraClassifier.JiraTask) :
    (JiraClassifier.chunks batch_size l).flatten = l :=
  chunksGo_flatten batch_size hbs l.length l (le_refl _)

/-- The first pass produces exactly one result per task, in task order. -/
theorem firstPass_task_ids (oracleB : List JiraClassifier.JiraTask → Option Str)
    (tasks : List JiraClassifier.JiraTask) (categories : List JiraClassifier.Category)
    (batch_size : Nat) (hbs : 1 ≤ batch_size) :
    (JiraClassifier.firstPassResults oracleB tasks categories batch_size).map (·.task_id)
      = tasks.map (·.key) := by
  rw [JiraClassifier.firstPassResults, List.map_flatMap]
  have h1 : ∀ (chs : List (List JiraClassifier.JiraTask)),
      chs.flatMap (fun batch =>
          (JiraClassifier._classify_batch oracleB batch categories).map (·.task_id))
        = chs.flatMap (fun batch => batch.map (·.key)) := by
    intro chs
    induction chs with
    | nil => rfl
    | cons b bs ih =>
      rw [List.flatMap_cons, List.flatMap_cons, ih, classify_batch_task_ids]
  have h2 : ∀ (chs : List (List JiraClassifier.JiraTask)),
      chs.flatMap (fun batch => batch.map (·.key)) = chs.flatten.map (·.key) := by
    intro chs
    induction chs with
    | nil => rfl
    | cons b bs ih =>
      rw [List.flatMap_cons, List.flatten_cons, List.map_append, ih]
  rw [h1, h2, chunks_flatten batch_size hbs]

/-- Inserting into the improved-results dict keeps the invariant that every
entry's key is its value's task id. -/
theorem resultDictInsert_inv (d : List (Str × JiraClassifier.ClassificationResult))
    (hinv : ∀ p ∈ d, p.2.task_id = p.1) (r : JiraClassifier.ClassificationResult) :
    ∀ p ∈ JiraClassifier.resultDictInsert d r, p.2.task_id = p.1 := by
  intro p hp
  rw [JiraClassifier.resultDictInsert] at hp
  split at hp
  · obtain ⟨q, hq, hpq⟩ := List.mem_map.mp hp
    by_cases hk : q.1 = r.task_id
    · rw [if_pos hk] at hpq
      rw [← hpq]
    · rw [if_neg hk] at hpq
      exact hpq ▸ hinv q hq
  · rcases List.mem_append.mp hp with h | h
    · exact hinv p h
    · rw [List.mem_singleton.mp h]

/-- The dict built from the improved results satisfies the key invariant. -/
theorem resultDictFold_inv (improved : List JiraClassifier.ClassificationResult) :
    ∀ p ∈ improved.foldl JiraClassifier.resultDictInsert [],
      p.2.task_id = p.1 := by
  suffices h : ∀ (d : List (Str × JiraClassifier.ClassificationResult)),
      (∀ p ∈ d, p.2.task_id = p.1) →
      ∀ p ∈ improved.foldl JiraClassifier.resultDictInsert d, p.2.task_id = p.1 by
    exact h [] (by intro p hp; simp at hp)
  induction improved with
  | nil => intro d hd; exact hd
  | cons r rs ih =>
    intro d hd
    exact ih _ (resultDictInsert_inv d hd r)

/-- A dict hit returns a result carrying the looked-up task id. -/
theorem resultDictLookup_task_id (d : List (Str × JiraClassifier.ClassificationResult))
    (hinv : ∀ p ∈ d, p.2.task_id = p.1) (k : Str)
    (v : JiraClassifier.ClassificationResult)
    (h : JiraClassifier.resultDictLookup d k = some v) : v.task_id = k := by
  rw [JiraClassifier.resultDictLookup] at h
  obtain ⟨p, hp, hpv⟩ := Option.map_eq_some'.mp h
  have hkey0 := List.find?_some hp
  have hkey : p.1 = k := by simpa using hkey0
  have := hinv p (List.mem_of_find?_eq_some hp)
  rw [hpv] at this
  rw [this, hkey]

/-- The substitution loop never changes the task-id column. -/
theorem applyImproved_task_ids (d : List (Str × JiraClassifier.ClassificationResult))
    (hinv : ∀ p ∈ d, p.2.task_id = p.1)
    (results : List JiraClassifier.ClassificationResult) :
    (JiraClassifier.applyImproved d results).map (·.task_id) = results.map (·.task_id) := by
  rw [JiraClassifier.applyImproved, List.map_map]
  refine List.map_congr_left (fun r _ => ?_)
  show (match JiraClassifier.resultDictLookup d r.task_id with
    | some r' => r'
    | none => r).task_id = r.task_id
  cases h : JiraClassifier.resultDictLookup d r.task_id with
  | none => rfl
  | some r' => exact resultDictLookup_task_id d hinv r.task_id r' h

/-- C1: the batch classifier is total — for every task list, non-empty
category list and positive batch size, the final result list (first pass
plus low-confidence substitution) has exactly one `ClassificationResult`
per input task, in task order with matching task ids; and in
`_parse_batch_response` every task at a position with no response block
receives the explicit fallback record (first category, confidence `0`,
rationale `Задача не была обработана`). -/
theorem claim_C1 (oracleB : List JiraClassifier.JiraTask → Option Str)
    (oracleS : JiraClassifier.JiraTask → Option Str)
    (tasks : List JiraClassifier.JiraTask) (c : JiraClassifier.Category)
    (cs : List JiraClassifier.Category) (batch_size : Nat) (confidence_threshold : Int)
    (hbs : 1 ≤ batch_size) :
    ((JiraClassifier.classify_tasks oracleB oracleS tasks (c :: cs) batch_size
        confidence_threshold).map (·.task_id) = tasks.map (·.key))
    ∧ ∀ (task_blocks : List Str) (i : Nat) (t : JiraClassifier.JiraTask),
        task_blocks.length ≤ i → tasks[i]? = some t →
        (JiraClassifier._parse_batch_response task_blocks tasks (c :: cs))[i]?
          = some ⟨t.key, JiraClassifier.zeroScores (c :: cs), c.name, 0,
              "Задача не была обработана".data, []⟩ := by
  constructor
  · simp only [JiraClassifier.classify_tasks]
    split
    · exact firstPass_task_ids oracleB tasks (c :: cs) batch_size hbs
    · rw [applyImproved_task_ids _ (resultDictFold_inv _) _]
      exact firstPass_task_ids oracleB tasks (c :: cs) batch_size hbs
  · intro task_blocks i t hbl hti
    have hit : i < tasks.length := by
      rcases List.getElem?_eq_some.mp hti with ⟨h, _⟩
      exact h
    rw [JiraClassifier._parse_batch_response]
    have hzlen : ((tasks.zip task_blocks).map
        (fun p => JiraClassifier._parse_single_task_response p.1.key p.2 (c :: cs))).length
        = min tasks.length task_blocks.length := by
      rw [List.length_map, List.length_zip]
    rw [List.getElem?_append_right (by rw [hzlen]; omega), List.getElem?_map, hzlen,
      List.getElem?_drop]
    have harith : task_blocks.length + (i - min tasks.length task_blocks.length) = i := by
      omega
    rw [harith, hti]
    rfl

/-- Witness for C1: two tasks, a one-block response (so the second task has
no block), one category — the result table still has a row per task in
order. -/
theorem claim_C1_witness :
    ((JiraClassifier.classify_tasks (fun _ => some JiraClassifier.response1) (fun _ => none)
        [JiraClassifier.mkTask ("T-1".data) ("Bug".data),
         JiraClassifier.mkTask ("T-2".data) ("Bug".data)]
        (⟨"cat_1".data, "Багфиксы".data, "исправление ошибок".data, [], [], []⟩ :: []) 1 50).map
        (·.task_id)
      = [JiraClassifier.mkTask ("T-1".data) ("Bug".data),
         JiraClassifier.mkTask ("T-2".data) ("Bug".data)].map (·.key)) :=
  (claim_C1 (fun _ => some JiraClassifier.response1) (fun _ => none)
    [JiraClassifier.mkTask ("T-1".data) ("Bug".data),
     JiraClassifier.mkTask ("T-2".data) ("Bug".data)]
    ⟨"cat_1".data, "Багфиксы".data, "исправление ошибок".data, [], [], []⟩ [] 1 50
    (by decide)).1
